import Mathlib

/-!
Verification of the flarestack likelihood core (`core/llh.py`,
`core/minimisation.py`) against its specification.

The event/source data model, the coincidence selector, the
signal-over-background energy-weight estimator, the test-statistic
evaluation and the minimisation loop are embedded shallowly over `ℝ`:
numpy float arrays become functions `ℕ → ℝ`, python dictionaries keyed
by grid values become a `Finset ℝ` of keys with a value function, and a
python exception (KeyError, IndexError, AttributeError) becomes `none`
in an `Option`-valued result.
-/

/-- Numpy's `np.log1p x = log (1 + x)` on reals. -/
noncomputable def log1p (x : ℝ) : ℝ := Real.log (1 + x)

/-- Numpy's `np.deg2rad`: degrees to radians. -/
noncomputable def deg2rad (x : ℝ) : ℝ := x * (Real.pi / 180)

/-- Python float `%` (and `np.mod`): for `y > 0` the representative of
`x` modulo `y` lying in `[0, y)`. -/
noncomputable def fmod (x y : ℝ) : ℝ := x - y * (⌊x / y⌋ : ℝ)

/-- Modelled from the spec: the `SoB` base class (imported by
`core/llh.py` but not part of the repository files) provides `_around`,
which snaps a value to the nearest point of the spectral-index grid of
spacing `precision` ("locate the nearest grid point"). -/
noncomputable def around (precision x : ℝ) : ℝ := (round (x / precision) : ℝ) * precision

/-- The energy SoB cache of `create_SoB_energy_cache`: a python dict
from gamma grid points to per-event arrays of log(Signal/Background)
values. `keys` is the dict's key set; `val g k` the array entry for
event `k` cached under gamma `g` (meaningful only for `g ∈ keys`). -/
structure SoBCache where
  keys : Finset ℝ
  val : ℝ → ℕ → ℝ

/-- Dict lookup `cache[g]`: `none` models a python KeyError. -/
noncomputable def SoBCache.lookup (c : SoBCache) (g : ℝ) : Option (ℕ → ℝ) :=
  if g ∈ c.keys then some (c.val g) else none

/-- Method `LLH.estimate_energy_weights` (`core/llh.py` lines 303-332): if
`gamma` is a key of the cache, return `exp` of the cached array;
otherwise centre on `g1 = _around(gamma)` with neighbours
`g0 = _around(g1 - dg)`, `g2 = _around(g1 + dg)` for `dg = precision`
and return `exp((S0 - 2 S1 + S2)/(2 dg^2) * (gamma - g1)^2 +
(S2 - S0)/(2 dg) * (gamma - g1) + S1)`; a missing key is a KeyError
(`none`). -/
noncomputable def estimate_energy_weights (precision : ℝ) (c : SoBCache) (gamma : ℝ) :
    Option (ℕ → ℝ) :=
  if gamma ∈ c.keys then
    some fun k => Real.exp (c.val gamma k)
  else
    let g1 := around precision gamma
    let dg := precision
    let g0 := around precision (g1 - dg)
    let g2 := around precision (g1 + dg)
    match c.lookup g0, c.lookup g1, c.lookup g2 with
    | some S0, some S1, some S2 =>
        some fun k =>
          Real.exp ((S0 k - 2 * S1 k + S2 k) / (2 * dg ^ 2) * (gamma - g1) ^ 2
            + (S2 k - S0 k) / (2 * dg) * (gamma - g1) + S1 k)
    | _, _, _ => none

/-- Second-order Taylor polynomial of a function with value `c1`, first
derivative `d1` and second derivative `d2` at `g1`, evaluated at `x`
(the spec's "second-order Taylor expansion of log(SoB) around g1"). -/
noncomputable def taylor2 (c1 d1 d2 g1 x : ℝ) : ℝ :=
  c1 + d1 * (x - g1) + d2 / 2 * (x - g1) ^ 2

/-- Central finite-difference first derivative from values `S0`, `S2`
at distance `dg` either side of the centre. -/
noncomputable def central_diff1 (S0 S2 dg : ℝ) : ℝ := (S2 - S0) / (2 * dg)

/-- Central finite-difference second derivative from values `S0`, `S1`,
`S2` spaced `dg` apart. -/
noncomputable def central_diff2 (S0 S1 S2 dg : ℝ) : ℝ := (S0 - 2 * S1 + S2) / dg ^ 2

/-- Function `estimate_energy_weights` for a fixed event index `k`, viewed as a
scalar function of gamma (a KeyError collapses to `0`, which happens at
no point relevant to the continuity statements). -/
noncomputable def eew_fun (precision : ℝ) (c : SoBCache) (k : ℕ) (gamma : ℝ) : ℝ :=
  ((estimate_energy_weights precision c gamma).getD fun _ => 0) k

/-- The exponentiated Taylor quadratic of the cell centred at grid
point `g1` (the value the estimator takes throughout that cell). -/
noncomputable def cell_quadratic (p : ℝ) (c : SoBCache) (k : ℕ) (g1 gamma : ℝ) : ℝ :=
  Real.exp ((c.val (g1 - p) k - 2 * c.val g1 k + c.val (g1 + p) k) / (2 * p ^ 2)
      * (gamma - g1) ^ 2
    + (c.val (g1 + p) k - c.val (g1 - p) k) / (2 * p) * (gamma - g1) + c.val g1 k)

/-- An event of a season's dataset: right ascension, declination and
arrival time (`ra`, `dec`, `timeMJD` in the numpy record array). The
remaining fields (`sigma`, `logE`, `sinDec`) enter only through the
abstracted PDF collaborators. -/
structure Event where
  ra : ℝ
  dec : ℝ
  time : ℝ

instance : Inhabited Event := ⟨⟨0, 0, 0⟩⟩

/-- A candidate source: right ascension and declination (`ra`, `dec`).
Catalogue metadata (name, weights, flare bounds) enters only through
the abstracted collaborators that consume it. -/
structure Source where
  ra : ℝ
  dec : ℝ

instance : Inhabited Source := ⟨⟨0, 0⟩⟩

/-- The temporal-PDF capability the selector uses: when configured, the
LLH object has `self.time_pdf` with `flare_time_mask(source)` returning
the source's `(start_time, end_time)` window. `none` models an LLH
built with `"LLH Time PDF": None` (no `time_pdf` attribute). -/
def TimePdfMask : Type := Option (Source → ℝ × ℝ)

/-- One source's coincidence condition in
`LLH.select_coincident_data` (`core/llh.py` lines 78-117): the time
mask (all-pass without a temporal PDF), the ±5° declination band
clipped to ±90°, and the right-ascension window of half width
`dPhi/2`, `dPhi = min(2π, 2·width/cos_factor)`, against the wrapped
right-ascension distance. When the band clips to a pole,
`cos_factor = 0` and numpy's division of the positive width by zero
yields `inf`, so the minimum picks `2π` (full sky): the zero case is
split off because real division by zero is `0`, not `inf`. -/
noncomputable def sourceCoincident (tp : TimePdfMask) (s : Source) (e : Event) : Prop :=
  let time_ok : Prop :=
    match tp with
    | some f => (f s).1 < e.time ∧ e.time < (f s).2
    | none => True
  let width := deg2rad 5
  let min_dec := max (-(Real.pi / 2)) (s.dec - width)
  let max_dec := min (Real.pi / 2) (s.dec + width)
  let dec_ok : Prop := min_dec < e.dec ∧ e.dec < max_dec
  let cos_factor := min (Real.cos min_dec) (Real.cos max_dec)
  let dPhi := if cos_factor = 0 then 2 * Real.pi
    else min (2 * Real.pi) (2 * width / cos_factor)
  let ra_dist := |fmod (e.ra - s.ra + Real.pi) (2 * Real.pi) - Real.pi|
  let ra_ok : Prop := ra_dist < dPhi / 2
  (dec_ok ∧ ra_ok) ∧ time_ok

/-- Whether `select_coincident_data`'s returned mask admits event `e`:
the veto starts true and each source clears it on coincidence
(`veto = veto & ~coincident_mask`); the mask is `~veto`. -/
noncomputable def select_event (tp : TimePdfMask) (sources : List Source) (e : Event) : Prop :=
  ¬ sources.foldl (fun v s => v ∧ ¬ sourceCoincident tp s e) True

/-- Boolean form of `select_event`, used to cut the dataset. -/
noncomputable def select_event_bool (tp : TimePdfMask) (sources : List Source) (e : Event) :
    Bool :=
  @decide (select_event tp sources e) (Classical.propDecidable _)

/-- The spec's reading of the per-source coincidence condition: strict
declination band `source dec ± 5°` clipped to `±90°`, wrapped
right-ascension distance strictly below the half-width
`width / cos_factor` capped at `π` — full sky whenever the scaled
half-width would exceed `π`, in particular when the band clips to a
pole and the scaling factor vanishes — and time strictly inside the
flare window when a temporal PDF is configured. -/
noncomputable def claimCoincident (tp : TimePdfMask) (s : Source) (e : Event) : Prop :=
  let width := deg2rad 5
  let lo := max (-(Real.pi / 2)) (s.dec - width)
  let hi := min (Real.pi / 2) (s.dec + width)
  let cos_factor := min (Real.cos lo) (Real.cos hi)
  (lo < e.dec ∧ e.dec < hi) ∧
    |fmod (e.ra - s.ra + Real.pi) (2 * Real.pi) - Real.pi| <
      (if cos_factor = 0 then Real.pi
       else min Real.pi (width / cos_factor)) ∧
    (match tp with
     | some f => (f s).1 < e.time ∧ e.time < (f s).2
     | none => True)

/-- The state `calculate_test_statistic` receives for its
`SoB_energy_cache` argument: the gamma-keyed dict (kept when gamma is
fit), the collapsed per-event weight array (fixed gamma with an energy
PDF), or python `None` (no energy PDF configured). -/
inductive EnergyState where
  | cache (c : SoBCache)
  | fixed (arr : ℕ → ℝ)
  | noEnergy

/-- Product `all_n_j = n_s * weights` as numpy broadcasts it: the
`(k,)` vector `n_s` against the `(n_sources, 1)` weight column gives
the `(n_sources, k)` outer product, entry `(i, j) = n_s[j] *
weights[i]` (for `k = 1` this is the per-source column `n_s·w_i`). -/
noncomputable def all_n_j_bc (n_s : List ℝ) (weights : ℕ → ℝ) : ℕ → ℕ → ℝ :=
  fun i j => n_s.getD j 0 * weights i

/-- The arithmetic of `calculate_test_statistic` (`core/llh.py` lines
194-206) once `n_s` and `SoB_energy` are resolved, with `all_n_j` the
`(n_sources, k)` broadcast product: the log1p line multiplies it
against the `(n_sources, n_mask)` array `SoB_energy * SoB_spacetime`,
which broadcasts only when `k = n_mask`, `k = 1` or `n_mask = 1`
(`none` models the ValueError otherwise); the second axis of the
result has numpy's broadcast length (`n_mask` when `k = 1`, else `k`)
and an axis of length 1 is indexed at 0. The veto term sums over the
whole `(n_sources, k)` product. The successful value is the doubled
total. -/
noncomputable def ts_core (n_sources n_mask n_all k : ℕ) (all_n_j : ℕ → ℕ → ℝ)
    (SoB_energy : ℕ → ℝ) (SoB_spacetime : ℕ → ℕ → ℝ) : Option ℝ :=
  if k = n_mask ∨ k = 1 ∨ n_mask = 1 then
    let llh_value := ∑ i ∈ Finset.range n_sources,
      ∑ t ∈ Finset.range (if k = 1 then n_mask else k),
        log1p (all_n_j i (if k = 1 then 0 else t) *
          (SoB_energy (if n_mask = 1 then 0 else t) *
            SoB_spacetime i (if n_mask = 1 then 0 else t) - 1) / n_all)
    let llh_value2 := llh_value + ∑ i ∈ Finset.range n_sources,
      ∑ j ∈ Finset.range k, ((n_all : ℝ) - (n_mask : ℝ)) * log1p (-all_n_j i j / n_all)
    some (2 * llh_value2)
  else none

/-- The spec's closed form `TS = 2 * [ Σ_coincident log1p(all_n_j *
(SoB_energy*SoB_spacetime − 1)/N_total) + Σ_sources (N_total −
N_coincident) * log1p(−all_n_j/N_total) ]`. -/
noncomputable def TS_claim (n_sources n_mask n_all : ℕ) (all_n_j : ℕ → ℝ)
    (SoB_energy : ℕ → ℝ) (SoB_spacetime : ℕ → ℕ → ℝ) : ℝ :=
  2 * ((∑ j ∈ Finset.range n_sources, ∑ k ∈ Finset.range n_mask,
      log1p (all_n_j j * (SoB_energy k * SoB_spacetime j k - 1) / n_all))
    + ∑ j ∈ Finset.range n_sources,
      ((n_all : ℝ) - (n_mask : ℝ)) * log1p (-all_n_j j / n_all))

/-- The signal-strength components of the parameter vector:
`params[:-1]` when gamma is fit, the whole vector otherwise. -/
def n_s_of (fit_gamma : Bool) (params : List ℝ) : List ℝ :=
  if fit_gamma then params.dropLast else params

/-- The analytic veto contribution of `core/llh.py` line 203:
`(n_all - n_mask) * log1p(-all_n_j / n_all)` for one source. -/
noncomputable def veto_term (all_n_j : ℝ) (n_mask n_all : ℕ) : ℝ :=
  ((n_all : ℝ) - (n_mask : ℝ)) * log1p (-all_n_j / n_all)

/-- The naive per-event form of the veto contribution: each of the
`n_all - n_mask` vetoed events evaluated individually with `SoB = 0`,
contributing `log1p(all_n_j * (0 - 1) / n_all)`. -/
noncomputable def naive_veto_sum (all_n_j : ℝ) (n_mask n_all : ℕ) : ℝ :=
  ∑ _k ∈ Finset.range (n_all - n_mask), log1p (all_n_j * (0 - 1) / n_all)

/-- Method `LLH.calculate_test_statistic` (`core/llh.py` lines 166-206): with
gamma fit, `n_s = params[:-1]` and the energy weights are estimated at
`gamma = params[-1]` from the cache; with an energy PDF but fixed
gamma, the pre-collapsed array is used; otherwise the energy weight is
`1`. `none` models the python errors of the remaining combinations
(IndexError on an empty vector, AttributeError on `None.keys()`, dict
arithmetic) and a KeyError inside the estimator. -/
noncomputable def calculate_test_statistic (fit_gamma : Bool) (precision : ℝ)
    (params : List ℝ) (weights : ℕ → ℝ) (n_sources n_mask n_all : ℕ)
    (SoB_spacetime : ℕ → ℕ → ℝ) (es : EnergyState) : Option ℝ :=
  if fit_gamma then
    match params.getLast? with
    | none => none
    | some gamma =>
      match es with
      | EnergyState.cache c =>
        match estimate_energy_weights precision c gamma with
        | some SoB_energy =>
          ts_core n_sources n_mask n_all params.dropLast.length
            (all_n_j_bc params.dropLast weights) SoB_energy SoB_spacetime
        | none => none
      | _ => none
  else
    match es with
    | EnergyState.fixed arr =>
      ts_core n_sources n_mask n_all params.length
        (all_n_j_bc params weights) arr SoB_spacetime
    | EnergyState.noEnergy =>
      ts_core n_sources n_mask n_all params.length
        (all_n_j_bc params weights) (fun _ => 1) SoB_spacetime
    | EnergyState.cache _ => none

/-- The LLH object as configured at construction: the fit-gamma flag,
the grid precision and default gamma of the `SoB` base class, the
optional temporal PDF, the spatial(×time) signal and background PDFs
(their internals — Gaussian in angular distance over a background
spline — are external collaborators), the optional energy model
(gamma support points plus the 2-D log-SoB spline) and the sources. -/
structure LLHModel where
  fit_gamma : Bool
  precision : ℝ
  default_gamma : ℝ
  time_pdf : TimePdfMask
  signal_pdf : Source → Event → ℝ
  background_pdf : Source → Event → ℝ
  energy : Option (Finset ℝ × (ℝ → Event → ℝ))
  sources : List Source

/-- Method `LLH.create_SoB_energy_cache` (`core/llh.py` lines 285-301): for
each gamma support point, the spline evaluated on every coincident
event. -/
noncomputable def create_SoB_energy_cache (support : Finset ℝ) (spline : ℝ → Event → ℝ)
    (cut_data : List Event) : SoBCache :=
  ⟨support, fun g k => spline g (cut_data.getD k default)⟩

/-- The coincident subset `data[mask]` of `create_llh_function`. -/
noncomputable def coincident_data (M : LLHModel) (data : List Event) : List Event :=
  data.filter fun e => select_event_bool M.time_pdf M.sources e

/-- The `SoB_spacetime` array of `create_llh_function`:
`signal_pdf/background_pdf` per source `i` and coincident event `k`. -/
noncomputable def SoB_spacetime_arr (M : LLHModel) (data : List Event) : ℕ → ℕ → ℝ :=
  fun i k =>
    M.signal_pdf (M.sources.getD i default) ((coincident_data M data).getD k default) /
      M.background_pdf (M.sources.getD i default) ((coincident_data M data).getD k default)

/-- Method `LLH.create_llh_function` (`core/llh.py` lines 125-164): select the
coincident data, build the spacetime SoB array and the energy cache
(collapsed to the default-gamma weights when gamma is not fit — a
construction-time KeyError is `none`), and return the test-statistic
closure. -/
noncomputable def create_llh_function (M : LLHModel) (data : List Event) :
    Option (List ℝ → (ℕ → ℝ) → Option ℝ) :=
  let cut := coincident_data M data
  let n_mask := cut.length
  let n_all := data.length
  let n_sources := M.sources.length
  let SoB_st := SoB_spacetime_arr M data
  match M.energy with
  | some eg =>
    let cache := create_SoB_energy_cache eg.1 eg.2 cut
    if M.fit_gamma then
      some fun params weights =>
        calculate_test_statistic true M.precision params weights
          n_sources n_mask n_all SoB_st (EnergyState.cache cache)
    else
      match estimate_energy_weights M.precision cache M.default_gamma with
      | some arr =>
        some fun params weights =>
          calculate_test_statistic false M.precision params weights
            n_sources n_mask n_all SoB_st (EnergyState.fixed arr)
      | none => none
  | none =>
    some fun params weights =>
      calculate_test_statistic M.fit_gamma M.precision params weights
        n_sources n_mask n_all SoB_st EnergyState.noEnergy

/-- One evaluation of the objective returned by `create_llh_function`
(`none` when construction itself fails). -/
noncomputable def llh_objective (M : LLHModel) (data : List Event) (params : List ℝ)
    (weights : ℕ → ℝ) : Option ℝ :=
  (create_llh_function M data).bind fun f => f params weights

/-- The spec's description of the energy weight entering the test
statistic: the estimated weights for the trial's gamma (the fit
parameter `params[-1]`, or the configured default when gamma is not
fit), or the constant `1` when no energy model is configured. -/
noncomputable def SoB_energy_resolved (M : LLHModel) (data : List Event) (params : List ℝ) :
    Option (ℕ → ℝ) :=
  match M.energy with
  | none => some fun _ => 1
  | some eg =>
    let cache := create_SoB_energy_cache eg.1 eg.2 (coincident_data M data)
    if M.fit_gamma then
      (params.getLast?).bind fun gamma => estimate_energy_weights M.precision cache gamma
    else
      estimate_energy_weights M.precision cache M.default_gamma

/-- The tuple `scipy.optimize.fmin_l_bfgs_b` returns to `run_trials`:
the minimising parameters `res[0]`, the objective value `res[1]` and
the convergence flag `res[2]["warnflag"]`. -/
structure LBFGSResult where
  vals : List ℝ
  fval : ℝ
  warnflag : ℕ

/-- The tuple `scipy.optimize.brute` returns with `full_output=True`:
the grid minimiser `res[0]` and its objective value `res[1]`. -/
structure BruteResult where
  vals : List ℝ
  fval : ℝ

/-- What one iteration of `run_trials` appends for a trial: the test
statistic `-res[1]`, the fitted parameters `res[0]`, and the flag. -/
structure TrialRecord where
  ts : ℝ
  vals : List ℝ
  flag : ℕ

/-- The body of the `run_trials` loop (`core/minimisation.py` lines
95-114): read the quasi-Newton warnflag, re-minimise by brute force
when it is positive (replacing `res`), and record `-res[1]`, `res[0]`
and the flag. `brute` is a thunk: the grid search runs only in the
fallback branch. -/
def run_trial_record (lbfgs : LBFGSResult) (brute : Unit → BruteResult) : TrialRecord :=
  let flag := lbfgs.warnflag
  if flag > 0 then
    let r := brute ()
    { ts := -r.fval, vals := r.vals, flag := flag }
  else
    { ts := -lbfgs.fval, vals := lbfgs.vals, flag := flag }

/-- Loop `run_trials` over `n` trials, with trial `i` minimiser outcomes
supplied by `outcomes i` (the objective, injector and scipy calls are
external collaborators). -/
def run_trials_records (n : ℕ) (outcomes : ℕ → LBFGSResult × (Unit → BruteResult)) :
    List TrialRecord :=
  (List.range n).map fun i => run_trial_record (outcomes i).1 (outcomes i).2

/-- The spec's description of one recorded trial: the brute-force
result replaces the quasi-Newton one exactly when `warnflag > 0`, and
the recorded convergence flag is the original warnflag in every
case. -/
def trial_record_claim (lbfgs : LBFGSResult) (brute : Unit → BruteResult) : TrialRecord :=
  if lbfgs.warnflag > 0 then
    { ts := -(brute ()).fval, vals := (brute ()).vals, flag := lbfgs.warnflag }
  else
    { ts := -lbfgs.fval, vals := lbfgs.vals, flag := lbfgs.warnflag }

/-- The flare-window candidate enumeration of `run_flare`
(`core/minimisation.py` lines 248-249):
`[(x, y) for x in all_times for y in all_times if y > x + min_flare]`. -/
def run_flare_pairs {α : Type} [LinearOrder α] [Add α] (min_flare : α)
    (all_times : List α) : List (α × α) :=
  all_times.flatMap fun x =>
    (all_times.filter fun y => decide (y > x + min_flare)).map fun y => (x, y)

/-- A catalogue entry as `run_stacked` consumes it: its
`weight_distance` column. -/
structure MSource where
  weight_distance : ℝ

/-- One season's LLH as `run_stacked`'s closure uses it: the optional
`time_pdf` attribute (created by `LLH.__init__` only when the
`"LLH Time PDF"` entry is a dictionary) exposing
`effective_injection_time`, the acceptance lookup, and the per-season
test-statistic closure from `create_llh_function`. -/
structure SeasonLLH where
  time_pdf : Option (MSource → ℝ)
  acceptance : List MSource → List ℝ → MSource → ℝ
  llh_f : List ℝ → (ℕ → ℝ) → Option ℝ

/-- One row of the weight matrix in `run_stacked.f_final`
(`core/minimisation.py` lines 164-181): per source, acceptance ×
distance weight × `llh.time_pdf.effective_injection_time(source)`.
Accessing `time_pdf` on an LLH built without a temporal PDF is an
AttributeError (`none`); with no sources the loop body never runs and
nothing is accessed. -/
noncomputable def stacked_weights_row (s : SeasonLLH) (sources : List MSource)
    (params : List ℝ) : Option (List ℝ) :=
  (sources.mapM fun src => (s.time_pdf).map fun tp => tp src).map fun tws =>
    (sources.zip tws).map fun q =>
      s.acceptance sources params q.1 * q.1.weight_distance * q.2

/-- The objective `f_final` returned by `run_stacked`
(`core/minimisation.py` lines 154-193): build the weight matrix row by
row, normalise it by its total, evaluate each season's test-statistic
closure on its weight column, and return the negated sum. -/
noncomputable def run_stacked_objective (seasons : List SeasonLLH) (sources : List MSource)
    (params : List ℝ) : Option ℝ :=
  (seasons.mapM fun s => stacked_weights_row s sources params).bind fun rows =>
    let total := (rows.map fun r => r.sum).sum
    let norm := rows.map fun r => r.map fun x => x / total
    ((seasons.zip norm).mapM fun q : SeasonLLH × List ℝ =>
        q.1.llh_f params fun j => q.2.getD j 1).map
      fun tss => -tss.sum

/-- Concrete cache for the estimator witnesses: grid `{0, 1, 2}` of
spacing 1, log-SoB value `g` at grid point `g` for every event. -/
noncomputable def C5cache : SoBCache := ⟨{0, 1, 2}, fun g _ => g⟩

/-- Concrete cache exhibiting the midpoint jump: grid `{0, 1, 2, 3}` of
spacing 1, log-SoB `1` at grid point `3` and `0` elsewhere. -/
noncomputable def C6cache : SoBCache := ⟨{0, 1, 2, 3}, fun g _ => if g = 3 then 1 else 0⟩

/-- Concrete cache for the continuity witness: grid `{0, 1, 2}` of
spacing 1, log-SoB `0` everywhere. -/
noncomputable def C6wcache : SoBCache := ⟨{0, 1, 2}, fun _ _ => 0⟩

/-- Concrete cache covering the spectral-index range `[1, 4]` with
spacing 1 and log-SoB `0` everywhere. -/
noncomputable def C7cache : SoBCache := ⟨{1, 2, 3, 4}, fun _ _ => 0⟩

/-- Concrete LLH configuration: no temporal PDF, no energy model,
gamma not fit, a single source, trivial spatial PDFs. -/
noncomputable def C1model : LLHModel :=
  ⟨false, 1, 2, none, fun _ _ => 1, fun _ _ => 1, none, [⟨0, 0⟩]⟩

/-- Concrete LLH configuration with two sources, no temporal PDF, no
energy model and gamma not fit, for the fit-weights broadcast failure. -/
noncomputable def C1badmodel : LLHModel :=
  ⟨false, 1, 2, none, fun _ _ => 1, fun _ _ => 1, none, [⟨0, 0⟩, ⟨0, 0⟩]⟩

/-- Concrete LLH configuration fitting gamma with an energy model whose
support points cover `[1, 4]` with spacing 1 (spline value `0`). -/
noncomputable def C7model : LLHModel :=
  ⟨true, 1, 2, none, fun _ _ => 1, fun _ _ => 1, some ({1, 2, 3, 4}, fun _ _ => 0), [⟨0, 0⟩]⟩

lemma ts_core_one (ns nm na : ℕ) (aj : ℕ → ℕ → ℝ) (E : ℕ → ℝ) (S : ℕ → ℕ → ℝ) :
    ts_core ns nm na 1 aj E S = some (TS_claim ns nm na (fun i => aj i 0) E S) := by
  have hidx : ∀ t ∈ Finset.range nm, (if nm = 1 then 0 else t) = t := by
    intro t ht
    rw [Finset.mem_range] at ht
    by_cases h1 : nm = 1
    · rw [if_pos h1]
      omega
    · rw [if_neg h1]
  have hsum : ∀ i : ℕ, (∑ t ∈ Finset.range nm,
        log1p (aj i 0 * (E (if nm = 1 then 0 else t) * S i (if nm = 1 then 0 else t) - 1)
          / na))
      = ∑ t ∈ Finset.range nm, log1p (aj i 0 * (E t * S i t - 1) / na) := by
    intro i
    refine Finset.sum_congr rfl fun t ht => ?_
    rw [hidx t ht]
  unfold ts_core TS_claim
  norm_num [hsum]

/-- Claim C3: for every `all_n_j`, `N_total` and `N_coincident` with
`N_coincident ≤ N_total`, the analytic veto term
`(N_total - N_coincident) * log1p(-all_n_j / N_total)` equals the sum,
over each of the `N_total - N_coincident` vetoed events taken
individually with `SoB = 0`, of `log1p(all_n_j * (0 - 1) / N_total)`. -/
theorem C3_veto_closed_form (a : ℝ) (n_mask n_all : ℕ) (h : n_mask ≤ n_all) :
    veto_term a n_mask n_all = naive_veto_sum a n_mask n_all := by
  unfold veto_term naive_veto_sum
  have harg : a * (0 - 1) / (n_all : ℝ) = -a / n_all := by ring
  rw [harg, Finset.sum_const, Finset.card_range, nsmul_eq_mul, Nat.cast_sub h]

/-- Witness for C3 at `all_n_j = 1`, `N_coincident = 2`, `N_total = 5`. -/
theorem C3_witness : veto_term 1 2 5 = naive_veto_sum 1 2 5 :=
  C3_veto_closed_form 1 2 5 (by norm_num)

/-- Claim C8: the flare candidate windows are exactly the ordered pairs
`(t_start, t_end)` of candidate arrival times with
`t_end > t_start + min_flare_duration` (strict, so a pair with
`t_end = t_start + min_flare_duration` is excluded); for arrival times
`[1, 2.5, 4]` and `min_flare_duration = 1` the pairs are exactly
`(1, 2.5), (1, 4), (2.5, 4)`. -/
theorem C8_flare_pair_enumeration :
    (∀ (m : ℝ) (ts : List ℝ) (a b : ℝ),
        (a, b) ∈ run_flare_pairs m ts ↔ a ∈ ts ∧ b ∈ ts ∧ b > a + m)
    ∧ run_flare_pairs (1 : ℚ) [1, 5/2, 4] = [(1, 5/2), (1, 4), (5/2, 4)]
    ∧ run_flare_pairs (1 : ℚ) [1, 2] = [] := by
  refine ⟨?_, by norm_num [run_flare_pairs, List.filter],
    by norm_num [run_flare_pairs, List.filter]⟩
  intro m ts a b
  simp only [run_flare_pairs, List.mem_flatMap, List.mem_map, List.mem_filter,
    decide_eq_true_eq, Prod.mk.injEq]
  constructor
  · rintro ⟨x, hx, y, ⟨hy, hlt⟩, rfl, rfl⟩
    exact ⟨hx, hy, hlt⟩
  · rintro ⟨ha, hb, hlt⟩
    exact ⟨a, ha, b, ⟨hb, hlt⟩, rfl, rfl⟩

/-- Claim C9: in `run_trials`, the brute-force grid search replaces the
quasi-Newton result exactly when the L-BFGS-B `warnflag` is positive,
and the convergence flag recorded for a trial is the original warnflag
in every case. -/
theorem C9_brute_force_fallback :
    (∀ (n : ℕ) (outcomes : ℕ → LBFGSResult × (Unit → BruteResult)),
        run_trials_records n outcomes =
          (List.range n).map fun i => trial_record_claim (outcomes i).1 (outcomes i).2)
    ∧ ∀ (L : LBFGSResult) (B : Unit → BruteResult),
        (run_trial_record L B).flag = L.warnflag := by
  constructor
  · intro n o
    unfold run_trials_records run_trial_record trial_record_claim
    rfl
  · intro L B
    by_cases hb : L.warnflag > 0 <;> simp [run_trial_record, hb]

/-- Claim C10: with the `"LLH Time PDF"` configuration entry `None`, no
season LLH has a `time_pdf` attribute, and every evaluation of the
objective returned by `run_stacked` fails with an AttributeError while
building the weight matrix, for any parameter vector. -/
theorem C10_stacked_needs_time_pdf (seasons : List SeasonLLH) (sources : List MSource)
    (params : List ℝ)
    (hnone : ∀ s ∈ seasons, s.time_pdf = none)
    (hseasons : seasons ≠ []) (hsources : sources ≠ []) :
    run_stacked_objective seasons sources params = none := by
  obtain ⟨s0, rest, rfl⟩ := List.exists_cons_of_ne_nil hseasons
  obtain ⟨src0, srest, rfl⟩ := List.exists_cons_of_ne_nil hsources
  have h0 : s0.time_pdf = none := hnone s0 (by simp)
  have hrow : stacked_weights_row s0 (src0 :: srest) params = none := by
    simp only [stacked_weights_row, h0, List.mapM_cons, Option.map_none, Option.map_eq_map]
    rfl
  unfold run_stacked_objective
  rw [List.mapM_cons, hrow]
  rfl

/-- Witness for C10: one season built without a temporal PDF and one
source. -/
theorem C10_witness :
    run_stacked_objective [⟨none, fun _ _ _ => 1, fun _ _ => some 0⟩] [⟨1⟩] [1] = none :=
  C10_stacked_needs_time_pdf _ _ _
    (by intro s hs; rw [List.mem_singleton] at hs; subst hs; rfl)
    (by simp) (by simp)

/-- Claim C5: if gamma equals a cached grid point,
`estimate_energy_weights` returns `exp(cache[gamma])` directly;
otherwise it returns the exponential of the second-order Taylor
expansion of `log(SoB)` around the nearest grid point `g1`, with
central finite-difference first and second derivatives built from the
cached values at `g0 = g1 - step`, `g1` and `g2 = g1 + step`, where
`step` is the configured grid precision. -/
theorem C5_energy_estimator (precision : ℝ) (c : SoBCache) (gamma : ℝ) :
    (gamma ∈ c.keys →
      estimate_energy_weights precision c gamma = some fun k => Real.exp (c.val gamma k))
    ∧ (gamma ∉ c.keys → around precision gamma ∈ c.keys →
        around precision (around precision gamma - precision) ∈ c.keys →
        around precision (around precision gamma + precision) ∈ c.keys →
        estimate_energy_weights precision c gamma = some fun k =>
          Real.exp (taylor2 (c.val (around precision gamma) k)
            (central_diff1 (c.val (around precision (around precision gamma - precision)) k)
              (c.val (around precision (around precision gamma + precision)) k) precision)
            (central_diff2 (c.val (around precision (around precision gamma - precision)) k)
              (c.val (around precision gamma) k)
              (c.val (around precision (around precision gamma + precision)) k) precision)
            (around precision gamma) gamma)) := by
  constructor
  · intro hmem
    unfold estimate_energy_weights
    rw [if_pos hmem]
  · intro hnot h1 h0 h2
    unfold estimate_energy_weights
    rw [if_neg hnot]
    simp only [SoBCache.lookup, if_pos h0, if_pos h1, if_pos h2]
    congr 1
    funext k
    congr 1
    unfold taylor2 central_diff1 central_diff2
    ring

/-- Witness for C5: the grid `{0, 1, 2}` of spacing 1, evaluated at the
grid point `1` (exact branch) and at `5/4` (Taylor branch centred on
`g1 = 1` with neighbours `0` and `2`). -/
theorem C5_witness :
    (estimate_energy_weights 1 C5cache 1 = some fun k => Real.exp (C5cache.val 1 k))
    ∧ estimate_energy_weights 1 C5cache (5/4) = some fun k =>
        Real.exp (taylor2 (C5cache.val (around 1 (5/4)) k)
          (central_diff1 (C5cache.val (around 1 (around 1 (5/4) - 1)) k)
            (C5cache.val (around 1 (around 1 (5/4) + 1)) k) 1)
          (central_diff2 (C5cache.val (around 1 (around 1 (5/4) - 1)) k)
            (C5cache.val (around 1 (5/4)) k)
            (C5cache.val (around 1 (around 1 (5/4) + 1)) k) 1)
          (around 1 (5/4)) (5/4)) := by
  have h1 : around 1 (5/4 : ℝ) = 1 := by norm_num [around, round_eq]
  have h0 : around 1 ((1:ℝ) - 1) = 0 := by norm_num [around, round_eq]
  have h2 : around 1 ((1:ℝ) + 1) = 2 := by norm_num [around, round_eq]
  constructor
  · exact (C5_energy_estimator 1 C5cache 1).1 (by norm_num [C5cache])
  · exact (C5_energy_estimator 1 C5cache (5/4)).2 (by norm_num [C5cache])
      (by rw [h1]; norm_num [C5cache]) (by rw [h1, h0]; norm_num [C5cache])
      (by rw [h1, h2]; norm_num [C5cache])

lemma calc_true_noEnergy (precision : ℝ) (params : List ℝ) (weights : ℕ → ℝ)
    (ns nm na : ℕ) (S : ℕ → ℕ → ℝ) :
    calculate_test_statistic true precision params weights ns nm na S
      EnergyState.noEnergy = none := by
  unfold calculate_test_statistic
  rcases params.getLast? with _ | g <;> rfl

lemma calc_true_cache (precision : ℝ) (c : SoBCache) (params : List ℝ)
    (weights : ℕ → ℝ) (ns nm na : ℕ) (S : ℕ → ℕ → ℝ) :
    calculate_test_statistic true precision params weights ns nm na S
        (EnergyState.cache c) =
      (params.getLast?).bind fun gamma =>
        (estimate_energy_weights precision c gamma).bind fun E =>
          ts_core ns nm na params.dropLast.length
            (all_n_j_bc params.dropLast weights) E S := by
  unfold calculate_test_statistic
  rcases params.getLast? with _ | g
  · rfl
  · cases h2 : estimate_energy_weights precision c g <;> simp [h2]

lemma calc_false_fixed (precision : ℝ) (arr : ℕ → ℝ) (params : List ℝ)
    (weights : ℕ → ℝ) (ns nm na : ℕ) (S : ℕ → ℕ → ℝ) :
    calculate_test_statistic false precision params weights ns nm na S
        (EnergyState.fixed arr) =
      ts_core ns nm na params.length (all_n_j_bc params weights) arr S := rfl

lemma calc_false_noEnergy (precision : ℝ) (params : List ℝ) (weights : ℕ → ℝ)
    (ns nm na : ℕ) (S : ℕ → ℕ → ℝ) :
    calculate_test_statistic false precision params weights ns nm na S
        EnergyState.noEnergy =
      ts_core ns nm na params.length (all_n_j_bc params weights) (fun _ => 1) S := rfl

/-- Claim C1 (amended): every successful evaluation of the objective
returned by `create_llh_function` equals `TS = 2 * [ Σ_coincident
log1p(all_n_j * (SoB_energy*SoB_spacetime − 1)/N_total) + Σ_sources
(N_total − N_coincident) * log1p(−all_n_j/N_total) ]`, with `all_n_j i
= n_s · weights i` and `SoB_energy` the estimated energy weight for the
trial's gamma (or `1` when no energy model is configured), provided the
`n_s` block of the parameter vector has length 1 (the pooled
signal-strength configuration). With per-source `n_s` components the
numpy product `n_s * weights` is an outer product, and the evaluation
raises a broadcast ValueError or computes a different quantity. -/
theorem C1_objective_formula (M : LLHModel) (data : List Event) (params : List ℝ)
    (weights : ℕ → ℝ) (t : ℝ)
    (hk : (n_s_of M.fit_gamma params).length = 1)
    (h : llh_objective M data params weights = some t) :
    ∃ E, SoB_energy_resolved M data params = some E ∧
      t = TS_claim M.sources.length (coincident_data M data).length data.length
        (fun i => (n_s_of M.fit_gamma params).getD 0 0 * weights i) E
        (SoB_spacetime_arr M data) := by
  unfold llh_objective at h
  unfold SoB_energy_resolved
  rcases hE : M.energy with _ | eg
  · have hc : create_llh_function M data = some fun params weights =>
        calculate_test_statistic M.fit_gamma M.precision params weights M.sources.length
          (coincident_data M data).length data.length (SoB_spacetime_arr M data)
          EnergyState.noEnergy := by
      simp only [create_llh_function, hE]
    rw [hc] at h
    simp only [Option.some_bind] at h
    cases hf : M.fit_gamma
    · rw [hf] at hk
      have hk1 : params.length = 1 := hk
      rw [hf, calc_false_noEnergy, hk1, ts_core_one] at h
      exact ⟨fun _ => 1, rfl, (Option.some.inj h).symm⟩
    · rw [hf, calc_true_noEnergy] at h
      exact absurd h (by simp)
  · cases hf : M.fit_gamma
    · rw [hf] at hk
      have hk1 : params.length = 1 := hk
      rcases hest : estimate_energy_weights M.precision
          (create_SoB_energy_cache eg.1 eg.2 (coincident_data M data))
          M.default_gamma with _ | arr
      · have hc : create_llh_function M data = none := by
          simp only [create_llh_function, hE, hf, Bool.false_eq_true, if_false]
          rw [hest]
        rw [hc] at h
        exact absurd h (by simp)
      · have hc : create_llh_function M data = some fun params weights =>
            calculate_test_statistic false M.precision params weights M.sources.length
              (coincident_data M data).length data.length (SoB_spacetime_arr M data)
              (EnergyState.fixed arr) := by
          simp only [create_llh_function, hE, hf, Bool.false_eq_true, if_false]
          rw [hest]
        rw [hc] at h
        simp only [Option.some_bind] at h
        rw [calc_false_fixed, hk1, ts_core_one] at h
        exact ⟨arr, hest, (Option.some.inj h).symm⟩
    · rw [hf] at hk
      have hk1 : params.dropLast.length = 1 := hk
      have hc : create_llh_function M data = some fun params weights =>
          calculate_test_statistic true M.precision params weights M.sources.length
            (coincident_data M data).length data.length (SoB_spacetime_arr M data)
            (EnergyState.cache (create_SoB_energy_cache eg.1 eg.2
              (coincident_data M data))) := by
        simp only [create_llh_function, hE, hf, if_true]
      rw [hc] at h
      simp only [Option.some_bind] at h
      rw [calc_true_cache] at h
      rcases hL : params.getLast? with _ | gamma
      · rw [hL] at h
        exact absurd h (by simp)
      · rw [hL] at h
        simp only [Option.some_bind] at h
        rcases hEst : estimate_energy_weights M.precision
            (create_SoB_energy_cache eg.1 eg.2 (coincident_data M data)) gamma with _ | E
        · rw [hEst] at h
          exact absurd h (by simp)
        · rw [hEst] at h
          simp only [Option.some_bind] at h
          rw [hk1, ts_core_one] at h
          exact ⟨E, hEst, (Option.some.inj h).symm⟩

lemma round_mono_of_le {x y : ℝ} (h : x ≤ y) : round x ≤ round y := by
  rw [round_eq, round_eq]
  exact Int.floor_mono (by linarith)

lemma around_intCast_mul (p : ℝ) (hp : p ≠ 0) (n : ℤ) :
    around p ((n : ℝ) * p) = (n : ℝ) * p := by
  unfold around
  rw [mul_div_cancel_right₀ _ hp, round_intCast]

/-- Claim C7 (amended): a gamma beyond either end of the cached grid
range is never silently defaulted or extrapolated —
`estimate_energy_weights` fails on it with a KeyError; in the
fixed-gamma path this happens while `create_llh_function` is being
built, but in the fit-gamma path it is raised at objective evaluation,
not at construction. Here `a = ma·p` and `b = mb·p` bound the cached
grid. -/
theorem C7_out_of_range_errors (p a b : ℝ) (ma mb : ℤ) (c : SoBCache) (gamma : ℝ)
    (hp : 0 < p)
    (hlo : ∀ g ∈ c.keys, a ≤ g) (hhi : ∀ g ∈ c.keys, g ≤ b)
    (hma : a = (ma : ℝ) * p) (hmb : b = (mb : ℝ) * p)
    (hout : gamma < a ∨ b < gamma) :
    estimate_energy_weights p c gamma = none := by
  have hp' : p ≠ 0 := ne_of_gt hp
  have hnotmem : gamma ∉ c.keys := by
    intro hmem
    rcases hout with hl | hr2
    · exact absurd (hlo _ hmem) (not_le.mpr hl)
    · exact absurd (hhi _ hmem) (not_le.mpr hr2)
  rcases hout with hl | hr2
  · -- gamma below the bottom of the grid
    have hra : round (gamma / p) ≤ ma := by
      have h1 : gamma / p ≤ (ma : ℝ) := by
        rw [← mul_div_cancel_right₀ (ma : ℝ) hp']
        exact le_of_lt ((div_lt_div_right hp).mpr (hma ▸ hl))
      have := round_mono_of_le h1
      rwa [round_intCast] at this
    by_cases hr : round (gamma / p) = ma
    · have e1 : around p gamma = (ma : ℝ) * p := by unfold around; rw [hr]
      have e0 : around p (around p gamma - p) = ((ma : ℝ) - 1) * p := by
        rw [e1]
        have e : (ma : ℝ) * p - p = ((ma - 1 : ℤ) : ℝ) * p := by push_cast; ring
        rw [e, around_intCast_mul p hp']
        push_cast
        ring
      have hg0mem : ((ma : ℝ) - 1) * p ∉ c.keys := by
        intro hmem
        have h2 := hlo _ hmem
        rw [hma] at h2
        nlinarith
      have hg0 : c.lookup (around p (around p gamma - p)) = none := by
        rw [e0]
        simp [SoBCache.lookup, hg0mem]
      unfold estimate_energy_weights
      rw [if_neg hnotmem]
      rcases h1' : c.lookup (around p gamma) with _ | S1 <;>
        rcases h2' : c.lookup (around p (around p gamma + p)) with _ | S2 <;>
          simp [h1', h2', hg0]
    · have hrlt : round (gamma / p) < ma := lt_of_le_of_ne hra hr
      have hg1mem : around p gamma ∉ c.keys := by
        intro hmem
        have h2 := hlo _ hmem
        unfold around at h2
        rw [hma] at h2
        have hle : ((round (gamma / p) : ℤ) : ℝ) ≤ ((ma - 1 : ℤ) : ℝ) := by
          exact_mod_cast Int.le_sub_one_of_lt hrlt
        push_cast at h2 hle
        nlinarith
      have hg1 : c.lookup (around p gamma) = none := by
        simp [SoBCache.lookup, hg1mem]
      unfold estimate_energy_weights
      rw [if_neg hnotmem]
      rcases h0' : c.lookup (around p (around p gamma - p)) with _ | S0 <;>
        rcases h2' : c.lookup (around p (around p gamma + p)) with _ | S2 <;>
          simp [h0', h2', hg1]
  · -- gamma above the top of the grid
    have hrb : mb ≤ round (gamma / p) := by
      have h1 : (mb : ℝ) ≤ gamma / p := by
        rw [← mul_div_cancel_right₀ (mb : ℝ) hp']
        exact le_of_lt ((div_lt_div_right hp).mpr (hmb ▸ hr2))
      have := round_mono_of_le h1
      rwa [round_intCast] at this
    by_cases hr : round (gamma / p) = mb
    · have e1 : around p gamma = (mb : ℝ) * p := by unfold around; rw [hr]
      have e2 : around p (around p gamma + p) = ((mb : ℝ) + 1) * p := by
        rw [e1]
        have e : (mb : ℝ) * p + p = ((mb + 1 : ℤ) : ℝ) * p := by push_cast; ring
        rw [e, around_intCast_mul p hp']
        push_cast
        ring
      have hg2mem : ((mb : ℝ) + 1) * p ∉ c.keys := by
        intro hmem
        have h2 := hhi _ hmem
        rw [hmb] at h2
        nlinarith
      have hg2 : c.lookup (around p (around p gamma + p)) = none := by
        rw [e2]
        simp [SoBCache.lookup, hg2mem]
      unfold estimate_energy_weights
      rw [if_neg hnotmem]
      rcases h0' : c.lookup (around p (around p gamma - p)) with _ | S0 <;>
        rcases h1' : c.lookup (around p gamma) with _ | S1 <;>
          simp [h0', h1', hg2]
    · have hrgt : mb < round (gamma / p) := lt_of_le_of_ne hrb (Ne.symm hr)
      have hg1mem : around p gamma ∉ c.keys := by
        intro hmem
        have h2 := hhi _ hmem
        unfold around at h2
        rw [hmb] at h2
        have hle : ((mb + 1 : ℤ) : ℝ) ≤ ((round (gamma / p) : ℤ) : ℝ) := by
          exact_mod_cast hrgt
        push_cast at h2 hle
        nlinarith
      have hg1 : c.lookup (around p gamma) = none := by
        simp [SoBCache.lookup, hg1mem]
      unfold estimate_energy_weights
      rw [if_neg hnotmem]
      rcases h0' : c.lookup (around p (around p gamma - p)) with _ | S0 <;>
        rcases h2' : c.lookup (around p (around p gamma + p)) with _ | S2 <;>
          simp [h0', h2', hg1]

/-- Counterexample for C7: with gamma fit, an out-of-range gamma is not
raised at construction — `create_llh_function` succeeds on a cache
covering `[1, 4]`, and the error (KeyError, modelled `none`) surfaces
only when the returned objective is evaluated at `gamma = 5`. -/
theorem C7_counterexample :
    create_llh_function C7model [] ≠ none ∧
    llh_objective C7model [] [0, 5] (fun _ => 1) = none := by
  have hest : ∀ cut : List Event,
      estimate_energy_weights 1
        (create_SoB_energy_cache ({1, 2, 3, 4} : Finset ℝ) (fun _ _ => 0) cut) 5 = none := by
    intro cut
    refine C7_out_of_range_errors 1 1 4 1 4 _ 5 (by norm_num) ?_ ?_ (by norm_num)
      (by norm_num) (Or.inr (by norm_num))
    · intro g hg
      simp only [create_SoB_energy_cache, Finset.mem_insert, Finset.mem_singleton] at hg
      rcases hg with rfl | rfl | rfl | rfl <;> norm_num
    · intro g hg
      simp only [create_SoB_energy_cache, Finset.mem_insert, Finset.mem_singleton] at hg
      rcases hg with rfl | rfl | rfl | rfl <;> norm_num
  constructor
  · simp [create_llh_function, C7model]
  · unfold llh_objective
    simp only [create_llh_function, C7model, if_true, Option.some_bind]
    rw [calc_true_cache]
    have hL : ([0, 5] : List ℝ).getLast? = some 5 := rfl
    rw [hL]
    simp only [Option.some_bind]
    rw [hest]
    rfl

/-- Witness for C7 (amended): `gamma = 5` above the grid `{1, 2, 3, 4}`
of spacing 1 makes the estimator fail. -/
theorem C7_witness : estimate_energy_weights 1 C7cache 5 = none :=
  C7_out_of_range_errors 1 1 4 1 4 C7cache 5 (by norm_num)
    (by intro g hg
        simp only [C7cache, Finset.mem_insert, Finset.mem_singleton] at hg
        rcases hg with rfl | rfl | rfl | rfl <;> norm_num)
    (by intro g hg
        simp only [C7cache, Finset.mem_insert, Finset.mem_singleton] at hg
        rcases hg with rfl | rfl | rfl | rfl <;> norm_num)
    (by norm_num) (by norm_num) (Or.inr (by norm_num))

lemma foldl_and_not (P : Source → Prop) (l : List Source) (A : Prop) :
    (l.foldl (fun v s => v ∧ ¬ P s) A) ↔ (A ∧ ∀ s ∈ l, ¬ P s) := by
  induction l generalizing A with
  | nil => simp
  | cons x xs ih =>
    rw [List.foldl_cons, ih]
    constructor
    · rintro ⟨⟨hA, hx⟩, hxs⟩
      exact ⟨hA, fun s hs => (List.mem_cons.mp hs).elim (fun h => h ▸ hx) (hxs s)⟩
    · rintro ⟨hA, hall⟩
      exact ⟨⟨hA, hall x (List.mem_cons_self x xs)⟩, fun s hs => hall s (List.mem_cons_of_mem x hs)⟩

lemma select_event_iff (tp : TimePdfMask) (sources : List Source) (e : Event) :
    select_event tp sources e ↔ ∃ s ∈ sources, sourceCoincident tp s e := by
  unfold select_event
  rw [foldl_and_not]
  simp

lemma half_dPhi (w cf : ℝ) : min (2 * Real.pi) (2 * w / cf) / 2 = min Real.pi (w / cf) := by
  rw [← min_div_div_right (by norm_num : (0:ℝ) ≤ 2)]
  congr 1
  · ring
  · rw [div_div, mul_comm cf 2, mul_div_mul_left _ _ (two_ne_zero)]

lemma sourceCoincident_iff_claim (tp : TimePdfMask) (s : Source) (e : Event) :
    sourceCoincident tp s e ↔ claimCoincident tp s e := by
  unfold sourceCoincident claimCoincident
  dsimp only
  by_cases hcf : min (Real.cos (max (-(Real.pi / 2)) (s.dec - deg2rad 5)))
      (Real.cos (min (Real.pi / 2) (s.dec + deg2rad 5))) = 0
  · rw [if_pos hcf, if_pos hcf]
    have h2 : 2 * Real.pi / 2 = Real.pi := by ring
    rw [h2]
    tauto
  · rw [if_neg hcf, if_neg hcf, half_dPhi]
    tauto

lemma deg2rad_pos {x : ℝ} (h : 0 < x) : 0 < deg2rad x := by
  unfold deg2rad
  positivity

lemma cos_w5_pos : 0 < Real.cos (deg2rad 5) := by
  apply Real.cos_pos_of_mem_Ioo
  constructor <;> unfold deg2rad <;> linarith [Real.pi_pos]

lemma C4_lo_eq : max (-(Real.pi/2)) ((0:ℝ) - deg2rad 5) = -(deg2rad 5) := by
  rw [zero_sub]
  exact max_eq_right (by unfold deg2rad; linarith [Real.pi_pos])

lemma C4_hi_eq : min (Real.pi/2) ((0:ℝ) + deg2rad 5) = deg2rad 5 := by
  rw [zero_add]
  exact min_eq_right (by unfold deg2rad; linarith [Real.pi_pos])

lemma fmod_pi_two_pi : fmod Real.pi (2*Real.pi) = Real.pi := by
  unfold fmod
  have h1 : Real.pi / (2*Real.pi) = 1/2 := by
    rw [div_eq_iff (by positivity : (2:ℝ)*Real.pi ≠ 0)]
    ring
  rw [h1]
  norm_num

lemma C4_example1 : claimCoincident none ⟨0, 0⟩ ⟨0, deg2rad (49/10), 0⟩ := by
  have hq : (0:ℝ) < Real.pi / 180 := by positivity
  unfold claimCoincident
  dsimp only
  rw [C4_lo_eq, C4_hi_eq, Real.cos_neg, min_self, if_neg (ne_of_gt cos_w5_pos)]
  refine ⟨⟨by unfold deg2rad; linarith, by unfold deg2rad; linarith⟩, ?_, trivial⟩
  have e0 : (0:ℝ) - 0 + Real.pi = Real.pi := by ring
  rw [e0, fmod_pi_two_pi, sub_self, abs_zero]
  exact lt_min Real.pi_pos (div_pos (deg2rad_pos (by norm_num)) cos_w5_pos)

lemma C4_example2 : ¬ select_event none [⟨0, 0⟩] ⟨0, deg2rad (51/10), 0⟩ := by
  rw [select_event_iff]
  rintro ⟨s, hs, hc⟩
  rw [List.mem_singleton] at hs
  subst hs
  rw [sourceCoincident_iff_claim] at hc
  unfold claimCoincident at hc
  dsimp only at hc
  obtain ⟨⟨-, h2⟩, -⟩ := hc
  rw [C4_hi_eq] at h2
  unfold deg2rad at h2
  have hq : (0:ℝ) < Real.pi / 180 := by positivity
  linarith

lemma C4_example3 : claimCoincident none ⟨deg2rad (1/10), 0⟩ ⟨deg2rad (3599/10), 0, 0⟩ := by
  have hq : (0:ℝ) < Real.pi / 180 := by positivity
  have hp180 : Real.pi = 180 * (Real.pi / 180) := by ring
  have hw : (0:ℝ) < deg2rad 5 := deg2rad_pos (by norm_num)
  have hcos : 0 < Real.cos (deg2rad 5) := cos_w5_pos
  have hcos1 : Real.cos (deg2rad 5) ≤ 1 := Real.cos_le_one _
  unfold claimCoincident
  dsimp only
  rw [C4_lo_eq, C4_hi_eq, Real.cos_neg, min_self, if_neg (ne_of_gt cos_w5_pos)]
  refine ⟨⟨by linarith, by linarith⟩, ?_, trivial⟩
  have hx : deg2rad (3599/10) - deg2rad (1/10) + Real.pi = (2699/5) * (Real.pi/180) := by
    unfold deg2rad
    ring
  rw [hx]
  have hdiv : ((2699/5) * (Real.pi/180)) / (2*Real.pi) = 2699/1800 := by
    rw [div_eq_iff (by positivity : (2:ℝ)*Real.pi ≠ 0)]
    ring
  have hfmod : fmod ((2699/5) * (Real.pi/180)) (2*Real.pi) = (899/5) * (Real.pi/180) := by
    unfold fmod
    rw [hdiv]
    have hfl : ⌊(2699/1800 : ℝ)⌋ = 1 := by norm_num
    rw [hfl]
    push_cast
    ring
  rw [hfmod]
  have habs : |(899/5) * (Real.pi/180) - Real.pi| = (1/5) * (Real.pi/180) := by
    rw [abs_of_nonpos (by linarith)]
    ring
  rw [habs]
  apply lt_min
  · linarith
  · have hge : deg2rad 5 ≤ deg2rad 5 / Real.cos (deg2rad 5) := by
      rw [le_div_iff hcos]
      exact mul_le_of_le_one_right (le_of_lt hw) hcos1
    have hlt : (1/5) * (Real.pi/180) < deg2rad 5 := by
      unfold deg2rad
      linarith
    linarith

/-- Claim C4: `select_coincident_data`'s mask admits an event iff for at
least one source the event lies strictly inside the clipped ±5°
declination band, its wrapped right-ascension distance is strictly
below the `1/cos`-scaled half-width capped at `π`, and (with a temporal
PDF) its time lies strictly inside the source's flare window; an event
at dec 4.9° is selected by a source at (0, 0) while dec 5.1° is not,
and ra 359.9° is close to a source at ra 0.1°. -/
theorem C4_coincidence_selection :
    (∀ (tp : TimePdfMask) (sources : List Source) (e : Event),
        select_event tp sources e ↔ ∃ s ∈ sources, claimCoincident tp s e)
    ∧ select_event none [⟨0, 0⟩] ⟨0, deg2rad (49/10), 0⟩
    ∧ ¬ select_event none [⟨0, 0⟩] ⟨0, deg2rad (51/10), 0⟩
    ∧ select_event none [⟨deg2rad (1/10), 0⟩] ⟨deg2rad (3599/10), 0, 0⟩ := by
  have hiff : ∀ (tp : TimePdfMask) (sources : List Source) (e : Event),
      select_event tp sources e ↔ ∃ s ∈ sources, claimCoincident tp s e := by
    intro tp sources e
    rw [select_event_iff]
    constructor
    · rintro ⟨s, hs, hc⟩
      exact ⟨s, hs, (sourceCoincident_iff_claim tp s e).mp hc⟩
    · rintro ⟨s, hs, hc⟩
      exact ⟨s, hs, (sourceCoincident_iff_claim tp s e).mpr hc⟩
  refine ⟨hiff, ?_, C4_example2, ?_⟩
  · exact (hiff none _ _).mpr ⟨_, List.mem_singleton_self _, C4_example1⟩
  · exact (hiff none _ _).mpr ⟨_, List.mem_singleton_self _, C4_example3⟩

lemma estimate_exact (p : ℝ) (c : SoBCache) (gamma : ℝ) (h : gamma ∈ c.keys) :
    estimate_energy_weights p c gamma = some fun k => Real.exp (c.val gamma k) := by
  unfold estimate_energy_weights
  rw [if_pos h]

lemma estimate_taylor_branch (p : ℝ) (c : SoBCache) (gamma g1 : ℝ) (m : ℤ)
    (hp' : p ≠ 0) (hnot : gamma ∉ c.keys)
    (hround : round (gamma / p) = m) (hg1 : g1 = (m : ℝ) * p)
    (h0 : g1 - p ∈ c.keys) (h1 : g1 ∈ c.keys) (h2 : g1 + p ∈ c.keys) :
    estimate_energy_weights p c gamma = some fun k =>
      Real.exp ((c.val (g1 - p) k - 2 * c.val g1 k + c.val (g1 + p) k) / (2 * p ^ 2)
          * (gamma - g1) ^ 2
        + (c.val (g1 + p) k - c.val (g1 - p) k) / (2 * p) * (gamma - g1) + c.val g1 k) := by
  subst hg1
  have e1 : around p gamma = (m : ℝ) * p := by
    unfold around
    rw [hround]
  have e0 : around p (around p gamma - p) = (m : ℝ) * p - p := by
    rw [e1]
    have e : (m : ℝ) * p - p = ((m - 1 : ℤ) : ℝ) * p := by push_cast; ring
    rw [e, around_intCast_mul p hp']
  have e2 : around p (around p gamma + p) = (m : ℝ) * p + p := by
    rw [e1]
    have e : (m : ℝ) * p + p = ((m + 1 : ℤ) : ℝ) * p := by push_cast; ring
    rw [e, around_intCast_mul p hp']
  unfold estimate_energy_weights
  rw [if_neg hnot]
  dsimp only
  rw [e0, e2, e1]
  unfold SoBCache.lookup
  rw [if_pos h0, if_pos h1, if_pos h2]

/-- Counterexample for C6: on the grid `{0, 1, 2, 3}` of spacing 1 with
log-SoB values `(0, 0, 0, 1)`, the estimator is discontinuous at
`gamma = 3/2` — strictly between grid points 1 and 2 and inside the
grid range — because the Taylor expansion recentres there. -/
theorem C6_counterexample : ¬ ContinuousAt (eew_fun 1 C6cache 0) (3/2) := by
  intro h
  have hval : eew_fun 1 C6cache 0 (3/2) = Real.exp (-(1/8)) := by
    have hbr := estimate_taylor_branch 1 C6cache (3/2) 2 2 (by norm_num)
      (by norm_num [C6cache]) (by norm_num [round_eq]) (by norm_num)
      (by norm_num [C6cache]) (by norm_num [C6cache]) (by norm_num [C6cache])
    unfold eew_fun
    rw [hbr]
    simp only [Option.getD_some]
    norm_num [C6cache]
  have hone : ∀ γ ∈ Set.Ioo (14/10 : ℝ) (3/2), eew_fun 1 C6cache 0 γ = 1 := by
    intro γ hγ
    obtain ⟨hγ1, hγ2⟩ := hγ
    have hnot : γ ∉ C6cache.keys := by
      simp only [C6cache, Finset.mem_insert, Finset.mem_singleton]
      push_neg
      refine ⟨by linarith, by linarith, by linarith, by linarith⟩
    have hround : round (γ / 1) = 1 := by
      rw [div_one, round_eq]
      apply Int.floor_eq_iff.mpr
      constructor
      · push_cast
        linarith
      · push_cast
        linarith
    have hbr := estimate_taylor_branch 1 C6cache γ 1 1 (by norm_num) hnot hround
      (by norm_num) (by norm_num [C6cache]) (by norm_num [C6cache]) (by norm_num [C6cache])
    unfold eew_fun
    rw [hbr]
    simp only [Option.getD_some]
    norm_num [C6cache]
  have htend : Filter.Tendsto (eew_fun 1 C6cache 0)
      (nhdsWithin (3/2) (Set.Iio (3/2))) (nhds (Real.exp (-(1/8)))) :=
    (hval ▸ h.tendsto).mono_left nhdsWithin_le_nhds
  have hconst : Filter.Tendsto (eew_fun 1 C6cache 0)
      (nhdsWithin (3/2) (Set.Iio (3/2))) (nhds 1) := by
    apply Filter.Tendsto.congr' _ tendsto_const_nhds
    have hmem : Set.Ioo (14/10 : ℝ) (3/2) ∈ nhdsWithin (3/2 : ℝ) (Set.Iio (3/2)) :=
      Ioo_mem_nhdsWithin_Iio (by constructor <;> norm_num)
    exact Filter.eventuallyEq_of_mem hmem fun γ hγ => (hone γ hγ).symm
  have heq : Real.exp (-(1/8)) = 1 := tendsto_nhds_unique htend hconst
  have hlt : Real.exp (-(1/8 : ℝ)) < 1 := Real.exp_lt_one_iff.mpr (by norm_num)
  linarith

/-- Claim C6 (amended): within each half-open cell around a cached grid
point the estimator agrees with the exponentiated Taylor quadratic of
that cell, so it is continuous and differentiable there; it is exact at
the grid point and converges to `exp(cache[g])` as gamma approaches the
grid point from either side. It is, however, discontinuous in general
at the midpoints between grid points, where the expansion recentres. -/
theorem C6_estimator_continuity (p : ℝ) (c : SoBCache) (k : ℕ) (m : ℤ)
    (hp : 0 < p)
    (hmul : ∀ g ∈ c.keys, ∃ n : ℤ, g = (n : ℝ) * p)
    (h0 : (m : ℝ) * p - p ∈ c.keys) (h1 : (m : ℝ) * p ∈ c.keys)
    (h2 : (m : ℝ) * p + p ∈ c.keys) :
    (∀ γ ∈ Set.Ioo ((m : ℝ) * p - p/2) ((m : ℝ) * p + p/2),
        eew_fun p c k γ = cell_quadratic p c k ((m : ℝ) * p) γ)
    ∧ ContinuousAt (eew_fun p c k) ((m : ℝ) * p)
    ∧ eew_fun p c k ((m : ℝ) * p) = Real.exp (c.val ((m : ℝ) * p) k)
    ∧ ∀ γ ∈ Set.Ioo ((m : ℝ) * p - p/2) ((m : ℝ) * p + p/2),
        DifferentiableAt ℝ (eew_fun p c k) γ := by
  have hp' : p ≠ 0 := ne_of_gt hp
  have hcell : ∀ γ ∈ Set.Ioo ((m : ℝ) * p - p/2) ((m : ℝ) * p + p/2),
      eew_fun p c k γ = cell_quadratic p c k ((m : ℝ) * p) γ := by
    intro γ hγ
    obtain ⟨hγ1, hγ2⟩ := hγ
    by_cases hg : γ = (m : ℝ) * p
    · subst hg
      unfold eew_fun
      rw [estimate_exact p c _ h1]
      simp only [Option.getD_some]
      unfold cell_quadratic
      simp
    · have hnot : γ ∉ c.keys := by
        intro hmem
        obtain ⟨n, hn⟩ := hmul γ hmem
        have hnm : n ≠ m := fun he => hg (by rw [hn, he])
        have habs : (1:ℝ) ≤ |(n : ℝ) - (m : ℝ)| := by
          have := Int.one_le_abs (sub_ne_zero.mpr hnm)
          exact_mod_cast this
        subst hn
        rcases le_abs.mp habs with he | he
        · nlinarith [mul_le_mul_of_nonneg_right he (le_of_lt hp)]
        · nlinarith [mul_le_mul_of_nonneg_right he (le_of_lt hp)]
      have hround : round (γ / p) = m := by
        rw [round_eq]
        apply Int.floor_eq_iff.mpr
        have hd1 : ((m : ℝ) - 1/2) < γ / p := by
          rw [lt_div_iff hp]
          nlinarith
        have hd2 : γ / p < (m : ℝ) + 1/2 := by
          rw [div_lt_iff hp]
          nlinarith
        constructor
        · linarith
        · linarith
      unfold eew_fun
      rw [estimate_taylor_branch p c γ ((m : ℝ) * p) m hp' hnot hround rfl h0 h1 h2]
      rfl
  have hvalg : eew_fun p c k ((m : ℝ) * p) = Real.exp (c.val ((m : ℝ) * p) k) := by
    unfold eew_fun
    rw [estimate_exact p c _ h1]
    rfl
  have hG : Differentiable ℝ (cell_quadratic p c k ((m : ℝ) * p)) := by
    unfold cell_quadratic
    fun_prop
  have hopen : IsOpen (Set.Ioo ((m : ℝ) * p - p/2) ((m : ℝ) * p + p/2)) := isOpen_Ioo
  have hmemc : (m : ℝ) * p ∈ Set.Ioo ((m : ℝ) * p - p/2) ((m : ℝ) * p + p/2) := by
    constructor <;> linarith
  refine ⟨hcell, ?_, hvalg, ?_⟩
  · have heq : eew_fun p c k =ᶠ[nhds ((m : ℝ) * p)] cell_quadratic p c k ((m : ℝ) * p) :=
      Filter.eventuallyEq_of_mem (hopen.mem_nhds hmemc) hcell
    exact ((hG _).continuousAt).congr heq.symm
  · intro γ hγ
    have heq : eew_fun p c k =ᶠ[nhds γ] cell_quadratic p c k ((m : ℝ) * p) :=
      Filter.eventuallyEq_of_mem (hopen.mem_nhds hγ) hcell
    exact (heq.differentiableAt_iff).mpr (hG γ)

/-- Witness for C6 (amended): the grid `{0, 1, 2}` of spacing 1 around
its middle point `1`. -/
theorem C6_witness :
    ContinuousAt (eew_fun 1 C6wcache 0) (((1:ℤ) : ℝ) * 1) ∧
    eew_fun 1 C6wcache 0 (((1:ℤ) : ℝ) * 1) =
      Real.exp (C6wcache.val (((1:ℤ) : ℝ) * 1) 0) := by
  have h := C6_estimator_continuity 1 C6wcache 0 1 (by norm_num)
    (by intro g hg
        simp only [C6wcache, Finset.mem_insert, Finset.mem_singleton] at hg
        rcases hg with rfl | rfl | rfl
        · exact ⟨0, by norm_num⟩
        · exact ⟨1, by norm_num⟩
        · exact ⟨2, by norm_num⟩)
    (by norm_num [C6wcache]) (by norm_num [C6wcache]) (by norm_num [C6wcache])
  exact ⟨h.2.1, h.2.2.1⟩

lemma origin_coincident : claimCoincident none ⟨0, 0⟩ ⟨0, 0, 0⟩ := by
  unfold claimCoincident
  dsimp only
  rw [C4_lo_eq, C4_hi_eq, Real.cos_neg, min_self, if_neg (ne_of_gt cos_w5_pos)]
  refine ⟨⟨by unfold deg2rad; linarith [Real.pi_pos],
    by unfold deg2rad; linarith [Real.pi_pos]⟩, ?_, trivial⟩
  have e0 : (0:ℝ) - 0 + Real.pi = Real.pi := by ring
  rw [e0, fmod_pi_two_pi, sub_self, abs_zero]
  exact lt_min Real.pi_pos (div_pos (deg2rad_pos (by norm_num)) cos_w5_pos)

lemma origin_selected :
    select_event_bool none [(⟨0, 0⟩ : Source)] ⟨0, 0, 0⟩ = true :=
  @decide_eq_true _ (Classical.propDecidable _) ((select_event_iff _ _ _).mpr
    ⟨⟨0, 0⟩, List.mem_singleton_self _,
      (sourceCoincident_iff_claim _ _ _).mpr origin_coincident⟩)

lemma origin_selected_two :
    select_event_bool none [(⟨0, 0⟩ : Source), ⟨0, 0⟩] ⟨0, 0, 0⟩ = true :=
  @decide_eq_true _ (Classical.propDecidable _) ((select_event_iff _ _ _).mpr
    ⟨⟨0, 0⟩, List.mem_cons_self _ _,
      (sourceCoincident_iff_claim _ _ _).mpr origin_coincident⟩)

/-- Witness for C1 (amended): one source at the origin, one coincident
event, pooled `n_s = [1]` and unit weights — the objective evaluates to
`0`, which the claimed formula reproduces. -/
theorem C1_witness :
    llh_objective C1model [⟨0, 0, 0⟩] [1] (fun _ => 1) = some 0 ∧
    ∃ E, SoB_energy_resolved C1model [⟨0, 0, 0⟩] [1] = some E ∧
      (0 : ℝ) = TS_claim C1model.sources.length
        (coincident_data C1model [⟨0, 0, 0⟩]).length [(⟨0, 0, 0⟩ : Event)].length
        (fun i => (n_s_of C1model.fit_gamma [1]).getD 0 0 * (fun _ => (1:ℝ)) i) E
        (SoB_spacetime_arr C1model [⟨0, 0, 0⟩]) := by
  have h : llh_objective C1model [⟨0, 0, 0⟩] [1] (fun _ => 1) = some 0 := by
    unfold llh_objective create_llh_function coincident_data calculate_test_statistic
    norm_num [C1model, origin_selected, List.filter_cons, ts_core, all_n_j_bc,
      SoB_spacetime_arr, log1p, Finset.sum_range_one, coincident_data]
  exact ⟨h, C1_objective_formula C1model [⟨0, 0, 0⟩] [1] (fun _ => 1) 0 rfl h⟩

/-- Counterexample for C1: in the fit-weights configuration — two
sources with per-source `n_s = [0, 0]` — and three coincident events,
the `(2, 2)` outer product `n_s * weights` cannot broadcast against the
`(2, 3)` SoB array, so the objective raises a ValueError (modelled
`none`) instead of evaluating to the claimed formula. -/
theorem C1_counterexample :
    llh_objective C1badmodel [⟨0, 0, 0⟩, ⟨0, 0, 0⟩, ⟨0, 0, 0⟩] [0, 0] (fun _ => 1) =
      none := by
  unfold llh_objective create_llh_function coincident_data calculate_test_statistic
  norm_num [C1badmodel, origin_selected_two, List.filter_cons, ts_core, coincident_data]
